import Mathlib

/-!
Shallow embedding of the audit-log anomaly pipeline of the
AcademicEquipmentOrderSystem repository.

Embedded source files:
* backend/utils/auditLogger.js (src/unnamed/part_004): validation and
  persistence of audit records, the lazy enqueue hand-off, and the legacy
  logAction wrapper.
* backend/services/anomalyClient.js: the HTTPS health check
  (isServiceAvailable) and the text formatter (formatLogForAnalysis).
* backend/services/anomalyProcessor.js (third segment of the concatenated
  anomalyClient.js source file): the in-memory queue, the periodic drain
  (processQueue), the retry path (handleFailedAnalysis) and the score
  upsert (storeAnomalyScore).
* backend/routes/logs.routes.js: the read-side left join of logs onto
  log_anomaly_scores.

JavaScript values reaching the embedded functions are modelled by JSValue.
JavaScript numbers are modelled by rationals (every integer and every
finite non-integral number such as 2.5 is representable) plus a separate
NaN constructor; the decimal rendering of non-integral numbers inside
template strings is abstracted.  Network effects (fetch outcomes, the
remote classifier) are modelled as explicit parameters, and the shared
mutable module state (queue, isProcessing flag, database tables) as
explicit state records threaded through the functions.
-/

namespace AuditPipeline

/-- Model of the JavaScript values that flow through the audit logger and
the anomaly pipeline: null, undefined, numbers (rational payload, with NaN
separate), strings, booleans and JSON objects. -/
inductive JSValue where
  | null
  | undefined
  | num (q : ℚ)
  | nan
  | str (s : String)
  | bool (b : Bool)
  | obj (fields : List (String × JSValue))

/-- JavaScript typeof operator restricted to the modelled values. -/
def jsTypeof : JSValue → String
  | JSValue.null => "object"
  | JSValue.undefined => "undefined"
  | JSValue.num _ => "number"
  | JSValue.nan => "number"
  | JSValue.str _ => "string"
  | JSValue.bool _ => "boolean"
  | JSValue.obj _ => "object"

/-- True exactly on null and undefined. -/
def jsIsNullish : JSValue → Bool
  | JSValue.null => true
  | JSValue.undefined => true
  | _ => false

/-- True exactly on the null value. -/
def jsIsNull : JSValue → Bool
  | JSValue.null => true
  | _ => false

/-- The isNaN test as used in the source, where it is only reached behind a
typeof number guard. -/
def jsIsNaN : JSValue → Bool
  | JSValue.nan => true
  | _ => false

/-- JavaScript truthiness: null, undefined, NaN, 0 and the empty string are
falsy; every other modelled value is truthy.  A rational is zero exactly
when its numerator is zero. -/
def jsTruthy : JSValue → Bool
  | JSValue.null => false
  | JSValue.undefined => false
  | JSValue.num q => !(q.num == 0)
  | JSValue.nan => false
  | JSValue.str s => !(s == "")
  | JSValue.bool b => b
  | JSValue.obj _ => true

/-- First-match property lookup in a JSON object field list. -/
def lookupField : List (String × JSValue) → String → JSValue
  | [], _ => JSValue.undefined
  | (k, x) :: rest, key => if k == key then x else lookupField rest key

/-- JavaScript property access v.key: undefined on every non-object. -/
def jsGet (v : JSValue) (key : String) : JSValue :=
  match v with
  | JSValue.obj fields => lookupField fields key
  | _ => JSValue.undefined

/-- JavaScript logical or: the left operand when truthy, else the right. -/
def jsOr (a b : JSValue) : JSValue :=
  if jsTruthy a then a else b

/-- Strict equality of a value against a string literal, as every
triple-equals comparison in the embedded source compares against one. -/
def jsStrictEqStr (v : JSValue) (s : String) : Bool :=
  match v with
  | JSValue.str t => t == s
  | _ => false

/-- Strict equality of a value against the boolean true. -/
def jsStrictEqTrue : JSValue → Bool
  | JSValue.bool b => b
  | _ => false

/-- Whitespace trimming on both ends of a character list. -/
def trimChars (cs : List Char) : List Char :=
  ((cs.dropWhile Char.isWhitespace).reverse.dropWhile Char.isWhitespace).reverse

/-- The String.prototype.trim operation. -/
def jsTrim (s : String) : String := ⟨trimChars s.data⟩

/-- Lower-casing, for the toLowerCase call in the formatter. -/
def jsToLower (s : String) : String := ⟨s.data.map Char.toLower⟩

/-- Character-list implementation of a starts-with test. -/
def charsStartWith : List Char → List Char → Bool
  | [], _ => true
  | _ :: _, [] => false
  | a :: as, b :: bs => a == b && charsStartWith as bs

/-- The String.prototype.includes substring test. -/
def strIncludes (hay needle : String) : Bool :=
  (List.range (hay.data.length + 1)).any fun i => charsStartWith needle.data (hay.data.drop i)

/-- The replace of every underscore by a space, embedding the global regex
replace used on the failure reason in the formatter. -/
def replaceUnderscores (s : String) : String :=
  ⟨s.data.map fun c => if c == '_' then ' ' else c⟩

/-- Rendering of a value inside a template string.  The decimal rendering
of numbers is abstracted to the rendering of the numerator. -/
def jsDisplay : JSValue → String
  | JSValue.null => "null"
  | JSValue.undefined => "undefined"
  | JSValue.num q => toString q.num
  | JSValue.nan => "NaN"
  | JSValue.str s => s
  | JSValue.bool b => if b then "true" else "false"
  | JSValue.obj _ => "[object Object]"

/-- The truthiness-based chain a or b or null on possibly absent string
fields, as in created_at or timestamp or null in the processor. -/
def strOrNull : Option String → Option String
  | some s => if s == "" then none else some s
  | none => none

/-- JavaScript a or b or null where a and b are possibly absent strings. -/
def jsOrStr (a b : Option String) : Option String :=
  match strOrNull a with
  | some s => some s
  | none => strOrNull b

/-! ## Audit logger (backend/utils/auditLogger.js, src/unnamed/part_004) -/

/-- System user id for non-authenticated actions (SYSTEM_USER_ID = 0). -/
def SYSTEM_USER_ID : ℚ := 0

/-- The closed enumeration of valid audit action types (AUDIT_ACTIONS,
whose values form the VALID_ACTIONS set). -/
def AUDIT_ACTIONS : List String :=
  ["LOGIN", "LOGOUT",
   "CREATE_ORDER", "APPROVE_ORDER", "REJECT_ORDER",
   "CREATE_PRODUCT", "UPDATE_PRODUCT", "DELETE_PRODUCT",
   "CREATE_USER", "UPDATE_USER", "DELETE_USER"]

/-- The VALID_ACTIONS.has membership test; strict set membership, so only
strings can be members. -/
def VALID_ACTIONS_has : JSValue → Bool
  | JSValue.str s => AUDIT_ACTIONS.contains s
  | _ => false

/-- The description test reached behind the typeof string guard: trimmed
description is the empty string. -/
def jsTrimmedEmpty : JSValue → Bool
  | JSValue.str s => jsTrim s == ""
  | _ => false

/-- Failure kinds for the four validation checks of logAuditAction, in
source order.  The source throws Error values whose messages identify the
failed check; the kinds name those checks. -/
inductive AuditError where
  | InvalidActor
  | InvalidActionType
  | InvalidDescription
  | InvalidMetadata
deriving DecidableEq, Repr

/-- The strict validation block of logAuditAction, in source order:
userId null or undefined, then userId not a number or NaN, then actionType
falsy or not in VALID_ACTIONS, then description falsy or not a string or
empty after trimming, then metadata neither null nor of object type. -/
def validateAudit (userId actionType description metadata : JSValue) : Option AuditError :=
  if jsIsNullish userId then some AuditError.InvalidActor
  else if !(jsTypeof userId == "number") || jsIsNaN userId then some AuditError.InvalidActor
  else if !(jsTruthy actionType) || !(VALID_ACTIONS_has actionType) then some AuditError.InvalidActionType
  else if !(jsTruthy description) || !(jsTypeof description == "string") || jsTrimmedEmpty description then
    some AuditError.InvalidDescription
  else if !(jsIsNull metadata) && !(jsTypeof metadata == "object") then some AuditError.InvalidMetadata
  else none

/-- A persisted row of the logs table: user_id, action, description,
metadata and timestamp columns, with the id assigned by the store. -/
structure DbLogRow where
  id : Int
  user_id : JSValue
  action : String
  description : String
  metadata : JSValue
  timestamp : String

/-- The snapshot object handed to queueLogForAnalysis.  The writer builds
it with exactly the fields id, action, description and metadata, so the
created_at and timestamp properties are absent (none) on every
writer-enqueued snapshot. -/
structure LogEntry where
  id : Int
  action : String
  description : String
  metadata : JSValue
  created_at : Option String := none
  timestamp : Option String := none

/-- An element of the in-memory anomaly queue: the snapshot spread
together with retries (starting at 0), queuedAt and, after a failure,
nextRetryAt. -/
structure QueueItem where
  id : Int
  action : String
  description : String
  metadata : JSValue
  created_at : Option String
  timestamp : Option String
  retries : Nat
  queuedAt : Nat
  nextRetryAt : Option Nat

/-- queueLogForAnalysis: rejects entries with a falsy id, otherwise
appends the spread snapshot with retries 0 and queuedAt to the queue. -/
def queueLogForAnalysis (logEntry : LogEntry) (nowMs : Nat) (queue : List QueueItem) : List QueueItem :=
  if logEntry.id == 0 then queue
  else
    queue ++ [{ id := logEntry.id, action := logEntry.action,
                description := logEntry.description, metadata := logEntry.metadata,
                created_at := logEntry.created_at, timestamp := logEntry.timestamp,
                retries := 0, queuedAt := nowMs, nextRetryAt := none }]

/-- Mutable state owned by the audit logger side: the logs table with its
id counter, and the in-memory anomaly queue. -/
structure AuditState where
  logs : List DbLogRow
  nextId : Int
  queue : List QueueItem

/-- Outcome of a logAuditAction call: a thrown validation error, a
returned failure object, or a returned success object with the new id. -/
inductive AuditOutcome where
  | thrown (e : AuditError)
  | failed (msg : String)
  | success (logId : Int)
deriving DecidableEq, Repr

/-- Behaviour of the lazy anomaly-queue hand-off: the processor module is
loaded and enqueue works, or the enqueue call throws, or the module was
unavailable and the hand-off is the no-op fallback. -/
inductive EnqueueMode where
  | ok
  | throws
  | unavailable
deriving DecidableEq, Repr

/-- The destructuring default metadata = null of logAuditAction, applied
when the property is absent (undefined). -/
def defaultMetadata : JSValue → JSValue
  | JSValue.undefined => JSValue.null
  | m => m

/-- logAuditAction: strict validation (throwing on the first violated
check), then the database insert, then the non-blocking enqueue hand-off
whose failure is caught inside the function, then the success return.
dbFails models the database insert reporting an error. -/
def logAuditAction (userId actionType description metadata : JSValue)
    (dbFails : Bool) (emode : EnqueueMode) (nowIso : String) (qNow : Nat)
    (st : AuditState) : AuditOutcome × AuditState :=
  let meta := defaultMetadata metadata
  match validateAudit userId actionType description meta with
  | some e => (AuditOutcome.thrown e, st)
  | none =>
    match actionType, description with
    | JSValue.str act, JSValue.str desc =>
      if dbFails then (AuditOutcome.failed "database error", st)
      else
        let newId := st.nextId
        let row : DbLogRow :=
          { id := newId, user_id := userId, action := act,
            description := jsTrim desc, metadata := meta, timestamp := nowIso }
        let snapshot : LogEntry :=
          { id := newId, action := act, description := jsTrim desc, metadata := meta }
        let queue2 :=
          match emode with
          | EnqueueMode.ok => queueLogForAnalysis snapshot qNow st.queue
          | EnqueueMode.throws => st.queue
          | EnqueueMode.unavailable => st.queue
        (AuditOutcome.success newId, { logs := st.logs ++ [row], nextId := newId + 1, queue := queue2 })
    | _, _ => (AuditOutcome.failed "unreachable", st)

/-- The legacy logAction wrapper: a null or undefined userId is coerced to
SYSTEM_USER_ID before delegating to logAuditAction. -/
def logAction (userId action description metadata : JSValue)
    (dbFails : Bool) (emode : EnqueueMode) (nowIso : String) (qNow : Nat)
    (st : AuditState) : AuditOutcome × AuditState :=
  let safeUserId :=
    match userId with
    | JSValue.null => JSValue.num SYSTEM_USER_ID
    | JSValue.undefined => JSValue.num SYSTEM_USER_ID
    | v => v
  logAuditAction safeUserId action description metadata dbFails emode nowIso qNow st

/-! ## Classifier client (backend/services/anomalyClient.js) -/

/-- Outcome of the health fetch: a thrown network error (connection
failure or the 2 second abort timeout), or an HTTP response with its ok
flag and its parsed JSON body (none when parsing throws). -/
inductive FetchOutcome where
  | netError
  | response (ok : Bool) (body : Option JSValue)

/-- isServiceAvailable: false on any thrown error, false on a non-ok
response, false on a malformed body, and otherwise the strict comparison
status healthy and model_loaded true. -/
def isServiceAvailable : FetchOutcome → Bool
  | FetchOutcome.netError => false
  | FetchOutcome.response ok body =>
    if !ok then false
    else
      match body with
      | none => false
      | some data =>
        jsStrictEqStr (jsGet data "status") "healthy" && jsStrictEqTrue (jsGet data "model_loaded")

/-- Parsed verdict of a successful analyze-log call. -/
structure AnalysisResult where
  log_id : Int
  anomaly_score : ℚ
  is_anomaly : Bool
  model_name : String
deriving DecidableEq, Repr

/-- formatLogForAnalysis: admin marker, per-action template, suspicious
metadata fields and source IP, joined with single spaces.  The only
statement of the source that can throw is the replace call on a truthy
non-string failure reason; that TypeError is the error case. -/
def formatLogForAnalysis (action description : String) (metadata : JSValue) : Except Unit String :=
  let meta := if jsTruthy metadata then metadata else JSValue.obj []
  let isAdmin :=
    jsStrictEqStr (jsGet meta "user_role") "admin" ||
    jsStrictEqStr (jsGet meta "role") "admin" ||
    strIncludes action "ADMIN" ||
    strIncludes (jsToLower description) "admin"
  let adminParts : List String := if isAdmin then ["Admin"] else []
  let switchParts : Except Unit (List String) :=
    if action == "LOGIN" then
      if jsStrictEqStr (jsGet meta "status") "failed" || jsTruthy (jsGet meta "reason") then
        let p1 := "failed login attempt for user: " ++
          jsDisplay (jsOr (jsGet meta "attempted_username") (JSValue.str "unknown"))
        if jsTruthy (jsGet meta "reason") then
          match jsGet meta "reason" with
          | JSValue.str r => Except.ok [p1, "(" ++ replaceUnderscores r ++ ")"]
          | _ => Except.error ()
        else Except.ok [p1]
      else Except.ok ["user logged in successfully"]
    else if action == "LOGOUT" then Except.ok ["user logged out"]
    else if action == "CREATE_ORDER" || action == "APPROVE_ORDER" || action == "REJECT_ORDER" then
      Except.ok (if !(description == "") then [description] else [])
    else if action == "CREATE_PRODUCT" || action == "UPDATE_PRODUCT" || action == "DELETE_PRODUCT" then
      Except.ok (if !(description == "") then [description] else [])
    else if action == "CREATE_USER" || action == "UPDATE_USER" || action == "DELETE_USER" then
      let base := if !(description == "") then [description] else []
      if jsStrictEqStr (jsGet meta "new_role") "admin" || jsTruthy (jsGet meta "role_change") then
        Except.ok (base ++ ["role changed to: " ++
          jsDisplay (jsOr (jsGet meta "new_role") (jsGet meta "role_change"))])
      else Except.ok base
    else Except.ok (if !(description == "") then [description] else [])
  match switchParts with
  | Except.error e => Except.error e
  | Except.ok mid =>
    let sus := jsOr (jsGet meta "input") (jsOr (jsGet meta "query") (jsGet meta "data"))
    let susParts :=
      if jsTruthy sus then
        match sus with
        | JSValue.str s => ["input: " ++ s]
        | _ => []
      else []
    let ip := jsGet meta "ip"
    let ipParts :=
      if jsTruthy ip && !(jsStrictEqStr ip "unknown") then ["from IP " ++ jsDisplay ip]
      else []
    Except.ok (String.intercalate " " (adminParts ++ mid ++ susParts ++ ipParts))

/-! ## Background processor (backend/services/anomalyProcessor.js) -/

/-- Configuration constant BATCH_SIZE. -/
def BATCH_SIZE : Nat := 10

/-- Configuration constant MAX_RETRIES. -/
def MAX_RETRIES : Nat := 3

/-- Configuration constant RETRY_DELAY_MS. -/
def RETRY_DELAY_MS : Nat := 30000

/-- Configuration constant PROCESS_INTERVAL_MS. -/
def PROCESS_INTERVAL_MS : Nat := 10000

/-- The binary-classification threshold literal written by
storeAnomalyScore into the threshold_used column. -/
def thresholdUsed : ℚ := ⟨1, 2, by decide, by decide⟩

/-- A row of the log_anomaly_scores table. -/
structure ScoreRow where
  log_id : Int
  anomaly_score : ℚ
  is_anomaly : Bool
  model_name : String
  threshold_used : ℚ
  analysis_text : Option String
  analyzed_at : String
deriving DecidableEq, Repr

/-- The insert-or-update of storeAnomalyScore, keyed on log_id with update
on conflict. -/
def upsertScore (rows : List ScoreRow) (r : ScoreRow) : List ScoreRow :=
  if rows.any fun x => x.log_id == r.log_id then
    rows.map fun x => if x.log_id == r.log_id then r else x
  else rows ++ [r]

/-- The row built by storeAnomalyScore from an analysis result. -/
def mkScoreRow (r : AnalysisResult) (text : String) (nowIso : String) : ScoreRow :=
  { log_id := r.log_id, anomaly_score := r.anomaly_score, is_anomaly := r.is_anomaly,
    model_name := r.model_name, threshold_used := thresholdUsed,
    analysis_text := some text, analyzed_at := nowIso }

/-- handleFailedAnalysis: while retries is below MAX_RETRIES, increment it,
stamp nextRetryAt and re-append the item to the queue (result flag true);
otherwise give up and leave the queue unchanged (result flag false, the
terminal failure being only logged). -/
def handleFailedAnalysis (nowMs : Nat) (logEntry : QueueItem) (queue : List QueueItem) :
    List QueueItem × Bool :=
  if logEntry.retries < MAX_RETRIES then
    let bumped :=
      { logEntry with
        retries := logEntry.retries + 1,
        nextRetryAt := some (nowMs + RETRY_DELAY_MS) }
    (queue ++ [bumped], true)
  else (queue, false)

/-- The remote classifier as seen through analyzeLog: id, formatted text
and optional timestamp in, parsed verdict or null out.  Every network
failure mode of analyzeLog is the none outcome. -/
def ClassifyOracle : Type := Int → String → Option String → Option AnalysisResult

/-- The per-item loop of processQueue over the drained batch: format the
text, call analyzeLog with the id, the text, and created_at or timestamp
or null, then upsert the result or route the item to the retry path; a
thrown formatting error also routes to the retry path.  Returns the
analyzeLog call list, the given-up ids, the final queue and the score
table. -/
def processBatch (classify : ClassifyOracle) (nowMs : Nat) (nowIso : String) :
    List QueueItem → List QueueItem → List ScoreRow →
    List (Int × String × Option String) × List Int × List QueueItem × List ScoreRow
  | [], queue, scores => ([], [], queue, scores)
  | logEntry :: rest, queue, scores =>
    match formatLogForAnalysis logEntry.action logEntry.description logEntry.metadata with
    | Except.error _ =>
      let re := handleFailedAnalysis nowMs logEntry queue
      let out := processBatch classify nowMs nowIso rest re.1 scores
      (out.1, (if re.2 then out.2.1 else logEntry.id :: out.2.1), out.2.2)
    | Except.ok logText =>
      let ts := jsOrStr logEntry.created_at logEntry.timestamp
      match classify logEntry.id logText ts with
      | some result =>
        let out := processBatch classify nowMs nowIso rest queue
          (upsertScore scores (mkScoreRow result logText nowIso))
        ((logEntry.id, logText, ts) :: out.1, out.2)
      | none =>
        let re := handleFailedAnalysis nowMs logEntry queue
        let out := processBatch classify nowMs nowIso rest re.1 scores
        ((logEntry.id, logText, ts) :: out.1,
         (if re.2 then out.2.1 else logEntry.id :: out.2.1), out.2.2)

/-- Module state of the processor: the queue, the mutual-exclusion flag
and the score table it writes. -/
structure ProcState where
  queue : List QueueItem
  isProcessing : Bool
  scores : List ScoreRow

/-- Observable outcome of one processQueue invocation: the drained batch,
the analyzeLog calls made, the ids given up on, and the state after. -/
structure CycleResult where
  batch : List QueueItem
  calls : List (Int × String × Option String)
  dropped : List Int
  state : ProcState

/-- processQueue: no-op when already processing or the queue is empty; on
an unhealthy service skip the cycle (flag cleared in the finally block);
otherwise splice up to BATCH_SIZE items off the front and run the per-item
loop, clearing the flag at the end. -/
def processQueue (health : Bool) (classify : ClassifyOracle) (nowMs : Nat) (nowIso : String)
    (s : ProcState) : CycleResult :=
  if s.isProcessing then { batch := [], calls := [], dropped := [], state := s }
  else if s.queue.isEmpty then { batch := [], calls := [], dropped := [], state := s }
  else if !health then
    { batch := [], calls := [], dropped := [],
      state := { s with isProcessing := false } }
  else
    let batch := s.queue.take BATCH_SIZE
    let rest := s.queue.drop BATCH_SIZE
    let out := processBatch classify nowMs nowIso batch rest s.scores
    { batch := batch, calls := out.1, dropped := out.2.1,
      state := { queue := out.2.2.1, isProcessing := false, scores := out.2.2.2 } }

/-- Environment of one timer tick: service health, classifier behaviour
and clock values. -/
structure Env where
  health : Bool
  classify : ClassifyOracle
  nowMs : Nat
  nowIso : String

/-- A sequence of drain cycles: the per-cycle results and the final
state. -/
def runCycles : List Env → ProcState → List CycleResult × ProcState
  | [], s => ([], s)
  | e :: rest, s =>
    let r := processQueue e.health e.classify e.nowMs e.nowIso s
    let out := runCycles rest r.state
    (r :: out.1, out.2)

/-- The ids of the items of a queue. -/
def queueIds (q : List QueueItem) : List Int := q.map QueueItem.id

/-! ## Read path (backend/routes/logs.routes.js) -/

/-- The shape returned by GET /api/logs for one log row. -/
structure ApiLog where
  id : Int
  userId : JSValue
  action : String
  description : String
  metadata : JSValue
  createdAt : String
  anomalyScore : Option ℚ
  isAnomaly : Bool
  modelName : Option String
  analyzedAt : Option String

/-- The related log_anomaly_scores row of a log under the unique
constraint on log_id. -/
def findScoreFor (scores : List ScoreRow) (logId : Int) : Option ScoreRow :=
  scores.find? fun srow => srow.log_id == logId

/-- The per-row mapping of the GET /api/logs handler: database fields are
renamed, and the anomaly fields fall back to null, false, null, null when
no related score row exists. -/
def mapLogRow (scores : List ScoreRow) (log : DbLogRow) : ApiLog :=
  let anomalyData := findScoreFor scores log.id
  { id := log.id, userId := log.user_id, action := log.action,
    description := log.description, metadata := log.metadata, createdAt := log.timestamp,
    anomalyScore := anomalyData.map ScoreRow.anomaly_score,
    isAnomaly := match anomalyData with | some a => a.is_anomaly | none => false,
    modelName := anomalyData.map ScoreRow.model_name,
    analyzedAt := anomalyData.map ScoreRow.analyzed_at }

/-- The GET /api/logs response body over the fetched log rows (the
database-side descending timestamp ordering is the order of the input
list). -/
def listWithResults (logs : List DbLogRow) (scores : List ScoreRow) : List ApiLog :=
  logs.map (mapLogRow scores)

/-! ## Specification-side validity predicates (section 4.1 of the spec,
with the actor condition as the code checks it: a number, not NaN) -/

/-- Spec-side actor validity: present and a (non-NaN) number. -/
def SpecActorOk (v : JSValue) : Prop := ∃ q, v = JSValue.num q

/-- Spec-side action validity: a member of the closed enumeration. -/
def SpecActionOk (v : JSValue) : Prop := ∃ s, v = JSValue.str s ∧ s ∈ AUDIT_ACTIONS

/-- Spec-side description validity: a string that is non-empty after
trimming. -/
def SpecDescriptionOk (v : JSValue) : Prop := ∃ s, v = JSValue.str s ∧ jsTrim s ≠ ""

/-- Spec-side metadata validity: null or an object. -/
def SpecMetadataOk (v : JSValue) : Prop :=
  v = JSValue.null ∨ ∃ fs, v = JSValue.obj fs

/-! ## Concrete scenario data used by the claims -/

/-- The JavaScript number 2.5: a finite, non-integral number. -/
def twoPointFive : ℚ := ⟨5, 2, by decide, by decide⟩

/-- A drain environment whose classifier always fails. -/
def envFail : Env := { health := true, classify := fun _ _ _ => none, nowMs := 0, nowIso := "t" }

/-- A freshly enqueued item used in the retry scenarios. -/
def failingItem : QueueItem :=
  { id := 1, action := "LOGIN", description := "user logged in", metadata := JSValue.null,
    created_at := none, timestamp := none, retries := 0, queuedAt := 0, nextRetryAt := none }

/-- An item whose retry count has reached MAX_RETRIES. -/
def exhaustedItem : QueueItem := { failingItem with retries := 3 }

/-- The re-queued copy of an item built by the retry path: retries
incremented and nextRetryAt stamped. -/
def bumpRetry (nowMs : Nat) (item : QueueItem) : QueueItem :=
  { item with retries := item.retries + 1, nextRetryAt := some (nowMs + RETRY_DELAY_MS) }

/-- The audit state produced by one successful logAuditAction call, used
to evaluate the hand-off to the drain cycle. -/
def c4State : AuditState :=
  (logAuditAction (JSValue.num 7) (JSValue.str "LOGIN") (JSValue.str "user alice logged in")
    JSValue.null false EnqueueMode.ok "2026-01-26T02:30:00Z" 1000
    { logs := [], nextId := 1, queue := [] }).2

/-- A classifier stub that succeeds on every call. -/
def c4Oracle : ClassifyOracle := fun i _ _ =>
  some { log_id := i, anomaly_score := 1, is_anomaly := true, model_name := "model" }

/-- A healthy drain cycle over the queue left by the writer. -/
def c4Cycle : CycleResult :=
  processQueue true c4Oracle 2000 "2026-01-26T02:31:00Z"
    { queue := c4State.queue, isProcessing := false, scores := [] }

/-! ## Helper lemmas on the validation layer -/

theorem VALID_ACTIONS_has_iff (a : JSValue) : VALID_ACTIONS_has a = true ↔ SpecActionOk a := by
  cases a with
  | str s =>
    have hcm : AUDIT_ACTIONS.contains s = true ↔ s ∈ AUDIT_ACTIONS := by simp
    simp only [VALID_ACTIONS_has, SpecActionOk, hcm]
    constructor
    · intro h; exact ⟨s, rfl, h⟩
    · rintro ⟨t, ht, hmem⟩
      cases ht
      exact hmem
  | null => simp [VALID_ACTIONS_has, SpecActionOk]
  | undefined => simp [VALID_ACTIONS_has, SpecActionOk]
  | num q => simp [VALID_ACTIONS_has, SpecActionOk]
  | nan => simp [VALID_ACTIONS_has, SpecActionOk]
  | bool b => simp [VALID_ACTIONS_has, SpecActionOk]
  | obj fs => simp [VALID_ACTIONS_has, SpecActionOk]

theorem mem_AUDIT_ACTIONS_ne_empty {s : String} (h : s ∈ AUDIT_ACTIONS) : s ≠ "" := by
  rintro rfl
  exact absurd h (by decide)

theorem validateAudit_invalidActor (u a d m : JSValue) (h : ¬ SpecActorOk u) :
    validateAudit u a d m = some AuditError.InvalidActor := by
  cases u with
  | num q => exact absurd ⟨q, rfl⟩ h
  | null => rfl
  | undefined => rfl
  | nan => rfl
  | str s => rfl
  | bool b => rfl
  | obj fs => rfl

theorem validateAudit_invalidActionType (u a d m : JSValue)
    (hu : SpecActorOk u) (h : ¬ SpecActionOk a) :
    validateAudit u a d m = some AuditError.InvalidActionType := by
  obtain ⟨q, rfl⟩ := hu
  have h1 : VALID_ACTIONS_has a = false := by
    rcases Bool.eq_false_or_eq_true (VALID_ACTIONS_has a) with ht | hf
    · exact absurd ((VALID_ACTIONS_has_iff a).mp ht) h
    · exact hf
  simp [validateAudit, jsIsNullish, jsTypeof, jsIsNaN, h1]

theorem validateAudit_invalidDescription (u a d m : JSValue)
    (hu : SpecActorOk u) (ha : SpecActionOk a) (h : ¬ SpecDescriptionOk d) :
    validateAudit u a d m = some AuditError.InvalidDescription := by
  obtain ⟨q, rfl⟩ := hu
  obtain ⟨s, rfl, hmem⟩ := ha
  have hs : s ≠ "" := mem_AUDIT_ACTIONS_ne_empty hmem
  have h1 : VALID_ACTIONS_has (JSValue.str s) = true := (VALID_ACTIONS_has_iff _).mpr ⟨s, rfl, hmem⟩
  cases d with
  | str t =>
    have ht : jsTrim t = "" := by
      by_contra hc
      exact h ⟨t, rfl, hc⟩
    simp [validateAudit, jsIsNullish, jsTypeof, jsIsNaN, jsTruthy, jsTrimmedEmpty, h1, hs, ht]
  | null => simp [validateAudit, jsIsNullish, jsTypeof, jsIsNaN, jsTruthy, h1, hs]
  | undefined => simp [validateAudit, jsIsNullish, jsTypeof, jsIsNaN, jsTruthy, h1, hs]
  | num p => simp [validateAudit, jsIsNullish, jsTypeof, jsIsNaN, jsTruthy, h1, hs]
  | nan => simp [validateAudit, jsIsNullish, jsTypeof, jsIsNaN, jsTruthy, h1, hs]
  | bool b => simp [validateAudit, jsIsNullish, jsTypeof, jsIsNaN, jsTruthy, h1, hs]
  | obj fs => simp [validateAudit, jsIsNullish, jsTypeof, jsIsNaN, jsTruthy, h1, hs]

theorem validateAudit_invalidMetadata (u a d m : JSValue)
    (hu : SpecActorOk u) (ha : SpecActionOk a) (hd : SpecDescriptionOk d)
    (h : ¬ SpecMetadataOk m) :
    validateAudit u a d m = some AuditError.InvalidMetadata := by
  obtain ⟨q, rfl⟩ := hu
  obtain ⟨s, rfl, hmem⟩ := ha
  obtain ⟨t, rfl, htr⟩ := hd
  have hs : s ≠ "" := mem_AUDIT_ACTIONS_ne_empty hmem
  have ht : t ≠ "" := by
    rintro rfl
    exact htr rfl
  have h1 : VALID_ACTIONS_has (JSValue.str s) = true := (VALID_ACTIONS_has_iff _).mpr ⟨s, rfl, hmem⟩
  have h2 : jsTrimmedEmpty (JSValue.str t) = false := by
    simp [jsTrimmedEmpty, htr]
  cases m with
  | null => exact absurd (Or.inl rfl) h
  | obj fs => exact absurd (Or.inr ⟨fs, rfl⟩) h
  | undefined =>
    simp [validateAudit, jsIsNullish, jsTypeof, jsIsNaN, jsTruthy, jsIsNull, h1, h2, hs, ht]
  | num p =>
    simp [validateAudit, jsIsNullish, jsTypeof, jsIsNaN, jsTruthy, jsIsNull, h1, h2, hs, ht]
  | nan =>
    simp [validateAudit, jsIsNullish, jsTypeof, jsIsNaN, jsTruthy, jsIsNull, h1, h2, hs, ht]
  | str w =>
    simp [validateAudit, jsIsNullish, jsTypeof, jsIsNaN, jsTruthy, jsIsNull, h1, h2, hs, ht]
  | bool b =>
    simp [validateAudit, jsIsNullish, jsTypeof, jsIsNaN, jsTruthy, jsIsNull, h1, h2, hs, ht]

theorem validateAudit_ok (u a d m : JSValue)
    (hu : SpecActorOk u) (ha : SpecActionOk a) (hd : SpecDescriptionOk d)
    (hm : SpecMetadataOk m) :
    validateAudit u a d m = none := by
  obtain ⟨q, rfl⟩ := hu
  obtain ⟨s, rfl, hmem⟩ := ha
  obtain ⟨t, rfl, htr⟩ := hd
  have hs : s ≠ "" := mem_AUDIT_ACTIONS_ne_empty hmem
  have ht : t ≠ "" := by
    rintro rfl
    exact htr rfl
  have h1 : VALID_ACTIONS_has (JSValue.str s) = true := (VALID_ACTIONS_has_iff _).mpr ⟨s, rfl, hmem⟩
  have h2 : jsTrimmedEmpty (JSValue.str t) = false := by
    simp [jsTrimmedEmpty, htr]
  rcases hm with rfl | ⟨fs, rfl⟩
  · simp [validateAudit, jsIsNullish, jsTypeof, jsIsNaN, jsTruthy, jsIsNull, h1, h2, hs, ht]
  · simp [validateAudit, jsIsNullish, jsTypeof, jsIsNaN, jsTruthy, jsIsNull, h1, h2, hs, ht]

theorem validateAudit_none_facts (u a d m : JSValue) (h : validateAudit u a d m = none) :
    SpecActorOk u ∧ SpecActionOk a ∧ SpecDescriptionOk d ∧ SpecMetadataOk m := by
  by_cases hu : SpecActorOk u
  · by_cases ha : SpecActionOk a
    · by_cases hd : SpecDescriptionOk d
      · by_cases hm : SpecMetadataOk m
        · exact ⟨hu, ha, hd, hm⟩
        · rw [validateAudit_invalidMetadata u a d m hu ha hd hm] at h
          cases h
      · rw [validateAudit_invalidDescription u a d m hu ha hd] at h
        cases h
    · rw [validateAudit_invalidActionType u a d m hu ha] at h
      cases h
  · rw [validateAudit_invalidActor u a d m hu] at h
    cases h

theorem SpecMetadataOk_defaultMetadata {m : JSValue} (h : SpecMetadataOk m) :
    defaultMetadata m = m := by
  rcases h with rfl | ⟨fs, rfl⟩ <;> rfl

theorem logAuditAction_of_validate_some (u a d m : JSValue) (dbFails : Bool)
    (emode : EnqueueMode) (nowIso : String) (qNow : Nat) (st : AuditState) (e : AuditError)
    (h : validateAudit u a d (defaultMetadata m) = some e) :
    logAuditAction u a d m dbFails emode nowIso qNow st = (AuditOutcome.thrown e, st) := by
  simp [logAuditAction, h]

theorem logAuditAction_success (u a d m : JSValue) (emode : EnqueueMode)
    (nowIso : String) (qNow : Nat) (st : AuditState)
    (h : validateAudit u a d (defaultMetadata m) = none) :
    ∃ act ds, a = JSValue.str act ∧ d = JSValue.str ds ∧
      logAuditAction u a d m false emode nowIso qNow st =
        (AuditOutcome.success st.nextId,
         { logs := st.logs ++
             [{ id := st.nextId, user_id := u, action := act, description := jsTrim ds,
                metadata := defaultMetadata m, timestamp := nowIso }],
           nextId := st.nextId + 1,
           queue :=
             (match emode with
              | EnqueueMode.ok =>
                queueLogForAnalysis
                  { id := st.nextId, action := act, description := jsTrim ds,
                    metadata := defaultMetadata m } qNow st.queue
              | EnqueueMode.throws => st.queue
              | EnqueueMode.unavailable => st.queue) }) := by
  obtain ⟨_, ⟨act, ha, _⟩, ⟨ds, hd, _⟩, _⟩ := validateAudit_none_facts _ _ _ _ h
  subst ha
  subst hd
  refine ⟨act, ds, rfl, rfl, ?_⟩
  cases emode <;> simp [logAuditAction, h]

/-! ## Helper lemmas on the processor -/

theorem queueIds_cons (a : QueueItem) (l : List QueueItem) :
    queueIds (a :: l) = a.id :: queueIds l := rfl

theorem queueIds_take (n : Nat) (l : List QueueItem) (x : Int)
    (hx : x ∈ queueIds (l.take n)) : x ∈ queueIds l := by
  simp only [queueIds, List.mem_map] at hx ⊢
  obtain ⟨a, ha, rfl⟩ := hx
  exact ⟨a, List.take_subset n l ha, rfl⟩

theorem queueIds_drop (n : Nat) (l : List QueueItem) (x : Int)
    (hx : x ∈ queueIds (l.drop n)) : x ∈ queueIds l := by
  simp only [queueIds, List.mem_map] at hx ⊢
  obtain ⟨a, ha, rfl⟩ := hx
  exact ⟨a, List.drop_subset n l ha, rfl⟩

theorem handleFailedAnalysis_ids (nowMs : Nat) (item : QueueItem) (q : List QueueItem) (x : Int)
    (hx : x ∈ queueIds (handleFailedAnalysis nowMs item q).1) :
    x = item.id ∨ x ∈ queueIds q := by
  unfold handleFailedAnalysis at hx
  split at hx
  · simp only [queueIds, List.map_append, List.mem_append, List.map_cons, List.map_nil,
      List.mem_cons, List.not_mem_nil, or_false] at hx
    rcases hx with hx | hx
    · exact Or.inr hx
    · exact Or.inl hx
  · exact Or.inr hx

theorem processBatch_queue_ids (classify : ClassifyOracle) (nowMs : Nat) (nowIso : String)
    (batch : List QueueItem) :
    ∀ (q : List QueueItem) (scores : List ScoreRow) (x : Int),
      x ∈ queueIds (processBatch classify nowMs nowIso batch q scores).2.2.1 →
      x ∈ queueIds batch ∨ x ∈ queueIds q := by
  induction batch with
  | nil =>
    intro q scores x hx
    exact Or.inr (by simpa [processBatch] using hx)
  | cons item rest ih =>
    intro q scores x hx
    have hre : ∀ (q2 : List QueueItem),
        x ∈ queueIds (processBatch classify nowMs nowIso rest
          (handleFailedAnalysis nowMs item q2).1 scores).2.2.1 →
        x ∈ queueIds (item :: rest) ∨ x ∈ queueIds q2 := by
      intro q2 hx2
      rcases ih _ _ _ hx2 with h | h
      · exact Or.inl (by rw [queueIds_cons]; exact List.mem_cons_of_mem _ h)
      · rcases handleFailedAnalysis_ids nowMs item q2 x h with h2 | h2
        · exact Or.inl (by rw [queueIds_cons, h2]; exact List.mem_cons_self _ _)
        · exact Or.inr h2
    rw [processBatch] at hx
    split at hx
    · exact hre q (by simpa using hx)
    · dsimp only at hx
      split at hx
      · rcases ih _ _ _ (by simpa using hx) with h | h
        · exact Or.inl (by rw [queueIds_cons]; exact List.mem_cons_of_mem _ h)
        · exact Or.inr h
      · exact hre q (by simpa using hx)

theorem processQueue_batch_ids (health : Bool) (classify : ClassifyOracle) (nowMs : Nat)
    (nowIso : String) (s : ProcState) (x : Int)
    (hx : x ∈ queueIds (processQueue health classify nowMs nowIso s).batch) :
    x ∈ queueIds s.queue := by
  unfold processQueue at hx
  split at hx
  · simp [queueIds] at hx
  · split at hx
    · simp [queueIds] at hx
    · split at hx
      · simp [queueIds] at hx
      · exact queueIds_take _ _ _ (by simpa using hx)

theorem processQueue_state_queue_ids (health : Bool) (classify : ClassifyOracle) (nowMs : Nat)
    (nowIso : String) (s : ProcState) (x : Int)
    (hx : x ∈ queueIds (processQueue health classify nowMs nowIso s).state.queue) :
    x ∈ queueIds s.queue := by
  unfold processQueue at hx
  split at hx
  · simpa using hx
  · split at hx
    · simpa using hx
    · split at hx
      · simpa using hx
      · have h := processBatch_queue_ids classify nowMs nowIso (s.queue.take BATCH_SIZE)
          (s.queue.drop BATCH_SIZE) s.scores x (by simpa using hx)
        rcases h with h | h
        · exact queueIds_take _ _ _ h
        · exact queueIds_drop _ _ _ h

theorem runCycles_absent_id (envs : List Env) :
    ∀ (s : ProcState) (i : Int), i ∉ queueIds s.queue →
      (∀ r ∈ (runCycles envs s).1, i ∉ queueIds r.batch) ∧
      i ∉ queueIds (runCycles envs s).2.queue := by
  induction envs with
  | nil =>
    intro s i hi
    constructor
    · intro r hr
      simp [runCycles] at hr
    · simpa [runCycles] using hi
  | cons e rest ih =>
    intro s i hi
    have hbatch : i ∉ queueIds (processQueue e.health e.classify e.nowMs e.nowIso s).batch :=
      fun hmem => hi (processQueue_batch_ids _ _ _ _ _ _ hmem)
    have hstate : i ∉ queueIds (processQueue e.health e.classify e.nowMs e.nowIso s).state.queue :=
      fun hmem => hi (processQueue_state_queue_ids _ _ _ _ _ _ hmem)
    obtain ⟨h1, h2⟩ := ih (processQueue e.health e.classify e.nowMs e.nowIso s).state i hstate
    constructor
    · intro r hr
      simp only [runCycles, List.mem_cons] at hr
      rcases hr with rfl | hr
      · exact hbatch
      · exact h1 r (by simpa using hr)
    · simp only [runCycles]
      simpa using h2

/-! ## Claims about the audit record writer -/

/-- C2: for every call to logAuditAction whose input is missing the actor
id (null or undefined), has an actionType outside the closed enumeration,
or has a description that is empty after trimming, the call throws a
validation error and the state — log store and queue — is returned
unchanged: no audit row is inserted by the failed call. -/
theorem C2_invalid_input_fails_and_preserves_store
    (userId actionType description metadata : JSValue) (dbFails : Bool) (emode : EnqueueMode)
    (nowIso : String) (qNow : Nat) (st : AuditState)
    (h : userId = JSValue.null ∨ userId = JSValue.undefined
       ∨ ¬ SpecActionOk actionType
       ∨ ∃ s, description = JSValue.str s ∧ jsTrim s = "") :
    ∃ e, logAuditAction userId actionType description metadata dbFails emode nowIso qNow st
      = (AuditOutcome.thrown e, st) := by
  have hv : validateAudit userId actionType description (defaultMetadata metadata) ≠ none := by
    intro hn
    obtain ⟨⟨q, hq⟩, hao, ⟨s, hds, htr⟩, _⟩ := validateAudit_none_facts _ _ _ _ hn
    rcases h with h | h | h | ⟨t, hdt, htt⟩
    · rw [h] at hq
      cases hq
    · rw [h] at hq
      cases hq
    · exact h hao
    · rw [hdt] at hds
      injection hds with hts
      rw [hts] at htt
      exact htr htt
  cases hval : validateAudit userId actionType description (defaultMetadata metadata) with
  | none => exact absurd hval hv
  | some e =>
    exact ⟨e, logAuditAction_of_validate_some userId actionType description metadata
      dbFails emode nowIso qNow st e hval⟩

/-- C2 witness: a concrete call with a null actor id throws and leaves the
empty store unchanged. -/
theorem C2_invalid_input_fails_and_preserves_store_witness :
    ∃ e, logAuditAction JSValue.null (JSValue.str "LOGIN") (JSValue.str "entry") JSValue.null
      false EnqueueMode.ok "t" 0 { logs := [], nextId := 1, queue := [] }
      = (AuditOutcome.thrown e, { logs := [], nextId := 1, queue := [] }) :=
  C2_invalid_input_fails_and_preserves_store JSValue.null (JSValue.str "LOGIN")
    (JSValue.str "entry") JSValue.null false EnqueueMode.ok "t" 0
    { logs := [], nextId := 1, queue := [] } (Or.inl rfl)

/-- C3: when validation passes (so the audit record is persisted), every
failure mode of the enqueue hand-off — the enqueue call throwing or the
processor module being unavailable — is caught inside logAuditAction: the
call still returns success with the new log id, does not throw back into
the caller, and the persisted audit row remains appended to the store. -/
theorem C3_enqueue_failure_caught (u a d m : JSValue) (emode : EnqueueMode)
    (nowIso : String) (qNow : Nat) (st : AuditState)
    (h : validateAudit u a d (defaultMetadata m) = none) :
    (logAuditAction u a d m false emode nowIso qNow st).1 = AuditOutcome.success st.nextId
    ∧ ∃ row : DbLogRow,
        (logAuditAction u a d m false emode nowIso qNow st).2.logs = st.logs ++ [row]
        ∧ row.id = st.nextId := by
  obtain ⟨act, ds, ha, hd, heq⟩ := logAuditAction_success u a d m emode nowIso qNow st h
  rw [heq]
  exact ⟨rfl, ⟨_, rfl, rfl⟩⟩

/-- C3 witness: a concrete valid call whose enqueue hand-off throws still
returns success 1 and persists its row. -/
theorem C3_enqueue_failure_caught_witness :
    (logAuditAction (JSValue.num 7) (JSValue.str "LOGIN") (JSValue.str "user alice logged in")
        JSValue.null false EnqueueMode.throws "t" 0
        { logs := [], nextId := 1, queue := [] }).1 = AuditOutcome.success 1
    ∧ ∃ row : DbLogRow,
        (logAuditAction (JSValue.num 7) (JSValue.str "LOGIN") (JSValue.str "user alice logged in")
            JSValue.null false EnqueueMode.throws "t" 0
            { logs := [], nextId := 1, queue := [] }).2.logs = [] ++ [row]
        ∧ row.id = 1 :=
  C3_enqueue_failure_caught (JSValue.num 7) (JSValue.str "LOGIN")
    (JSValue.str "user alice logged in") JSValue.null EnqueueMode.throws "t" 0
    { logs := [], nextId := 1, queue := [] } (by decide)

/-- C5 counterexample: the claim says the actor id must be an integer and
that every invalid input fails with the kind of the first violated check;
but the code only checks typeof number and NaN, so the non-integral actor
id 2.5 passes validation and the call succeeds instead of failing with
InvalidActor. -/
theorem C5_counterexample :
    twoPointFive.den ≠ 1
    ∧ validateAudit (JSValue.num twoPointFive) (JSValue.str "LOGIN") (JSValue.str "test entry")
        JSValue.null = none
    ∧ (logAuditAction (JSValue.num twoPointFive) (JSValue.str "LOGIN") (JSValue.str "test entry")
        JSValue.null false EnqueueMode.ok "2026-01-01T00:00:00Z" 0
        { logs := [], nextId := 1, queue := [] }).1 = AuditOutcome.success 1 := by
  refine ⟨by decide, by decide, by decide⟩

/-- C5 (amended): logAuditAction validates in order — actor id present and
of number type (not NaN; non-integral numbers are accepted), then
actionType a member of the closed enumeration, then description a
non-empty string after trimming, then metadata (if present) null or an
object — and for every invalid input it throws the failure kind of the
first violated check (InvalidActor, InvalidActionType, InvalidDescription,
InvalidMetadata respectively). -/
theorem C5_amended_validation_order :
    ∀ u a d m : JSValue,
      (¬ SpecActorOk u → validateAudit u a d m = some AuditError.InvalidActor)
      ∧ (SpecActorOk u → ¬ SpecActionOk a →
          validateAudit u a d m = some AuditError.InvalidActionType)
      ∧ (SpecActorOk u → SpecActionOk a → ¬ SpecDescriptionOk d →
          validateAudit u a d m = some AuditError.InvalidDescription)
      ∧ (SpecActorOk u → SpecActionOk a → SpecDescriptionOk d → ¬ SpecMetadataOk m →
          validateAudit u a d m = some AuditError.InvalidMetadata)
      ∧ (SpecActorOk u → SpecActionOk a → SpecDescriptionOk d → SpecMetadataOk m →
          validateAudit u a d m = none)
      ∧ (∀ (dbFails : Bool) (emode : EnqueueMode) (nowIso : String) (qNow : Nat)
           (st : AuditState) (e : AuditError),
          validateAudit u a d (defaultMetadata m) = some e →
          logAuditAction u a d m dbFails emode nowIso qNow st = (AuditOutcome.thrown e, st)) := by
  intro u a d m
  refine ⟨validateAudit_invalidActor u a d m,
    fun hu ha => validateAudit_invalidActionType u a d m hu ha,
    fun hu ha hd => validateAudit_invalidDescription u a d m hu ha hd,
    fun hu ha hd hm => validateAudit_invalidMetadata u a d m hu ha hd hm,
    fun hu ha hd hm => validateAudit_ok u a d m hu ha hd hm,
    fun dbFails emode nowIso qNow st e hv =>
      logAuditAction_of_validate_some u a d m dbFails emode nowIso qNow st e hv⟩

/-- C5 witness: a valid actor with an action type outside the enumeration
fails with InvalidActionType, and the thrown error propagates through
logAuditAction. -/
theorem C5_amended_validation_order_witness :
    validateAudit (JSValue.num 1) (JSValue.str "HACK") (JSValue.str "x") JSValue.null
      = some AuditError.InvalidActionType
    ∧ logAuditAction (JSValue.num 1) (JSValue.str "HACK") (JSValue.str "x") JSValue.null
        false EnqueueMode.ok "t" 0 { logs := [], nextId := 1, queue := [] }
      = (AuditOutcome.thrown AuditError.InvalidActionType,
         { logs := [], nextId := 1, queue := [] }) := by
  have hna : ¬ SpecActionOk (JSValue.str "HACK") := by
    rintro ⟨s, hs, hmem⟩
    injection hs with hse
    rw [← hse] at hmem
    exact absurd hmem (by decide)
  have h1 := (C5_amended_validation_order (JSValue.num 1) (JSValue.str "HACK")
    (JSValue.str "x") JSValue.null).2.1 ⟨1, rfl⟩ hna
  refine ⟨h1, ?_⟩
  exact (C5_amended_validation_order (JSValue.num 1) (JSValue.str "HACK")
    (JSValue.str "x") JSValue.null).2.2.2.2.2 false EnqueueMode.ok "t" 0
    { logs := [], nextId := 1, queue := [] } AuditError.InvalidActionType h1

/-- C10: the exported legacy logAction with a null or undefined userId
silently coerces the actor to SYSTEM_USER_ID (0) and the write proceeds as
a system-attributed record, while the strict logAuditAction rejects the
same null actor — so the legacy entry point bypasses the rule that a
missing actor must fail the write. -/
theorem C10_legacy_null_actor_coerced (act ds : String) (m : JSValue)
    (nowIso : String) (qNow : Nat) (st : AuditState)
    (hmem : act ∈ AUDIT_ACTIONS) (htr : jsTrim ds ≠ "") (hm : SpecMetadataOk m) :
    ((logAction JSValue.null (JSValue.str act) (JSValue.str ds) m false EnqueueMode.ok
        nowIso qNow st).1 = AuditOutcome.success st.nextId
     ∧ ∃ row : DbLogRow,
         (logAction JSValue.null (JSValue.str act) (JSValue.str ds) m false EnqueueMode.ok
             nowIso qNow st).2.logs = st.logs ++ [row]
         ∧ row.user_id = JSValue.num SYSTEM_USER_ID ∧ row.id = st.nextId)
    ∧ (logAction JSValue.undefined (JSValue.str act) (JSValue.str ds) m false EnqueueMode.ok
        nowIso qNow st).1 = AuditOutcome.success st.nextId
    ∧ ∃ e, logAuditAction JSValue.null (JSValue.str act) (JSValue.str ds) m false EnqueueMode.ok
        nowIso qNow st = (AuditOutcome.thrown e, st) := by
  have hval : validateAudit (JSValue.num SYSTEM_USER_ID) (JSValue.str act) (JSValue.str ds)
      (defaultMetadata m) = none := by
    apply validateAudit_ok
    · exact ⟨SYSTEM_USER_ID, rfl⟩
    · exact ⟨act, rfl, hmem⟩
    · exact ⟨ds, rfl, htr⟩
    · rw [SpecMetadataOk_defaultMetadata hm]
      exact hm
  obtain ⟨act2, ds2, ha2, hd2, heq⟩ := logAuditAction_success (JSValue.num SYSTEM_USER_ID)
    (JSValue.str act) (JSValue.str ds) m EnqueueMode.ok nowIso qNow st hval
  injection ha2 with hae
  injection hd2 with hde
  have hwrap : logAction JSValue.null (JSValue.str act) (JSValue.str ds) m false EnqueueMode.ok
      nowIso qNow st = logAuditAction (JSValue.num SYSTEM_USER_ID) (JSValue.str act)
      (JSValue.str ds) m false EnqueueMode.ok nowIso qNow st := rfl
  have hwrap2 : logAction JSValue.undefined (JSValue.str act) (JSValue.str ds) m false
      EnqueueMode.ok nowIso qNow st = logAuditAction (JSValue.num SYSTEM_USER_ID)
      (JSValue.str act) (JSValue.str ds) m false EnqueueMode.ok nowIso qNow st := rfl
  refine ⟨⟨?_, ?_⟩, ?_, ?_⟩
  · rw [hwrap, heq]
  · rw [hwrap, heq]
    exact ⟨_, rfl, rfl, rfl⟩
  · rw [hwrap2, heq]
  · have hinv : validateAudit JSValue.null (JSValue.str act) (JSValue.str ds)
        (defaultMetadata m) = some AuditError.InvalidActor := by
      apply validateAudit_invalidActor
      rintro ⟨p, hp⟩
      cases hp
    exact ⟨AuditError.InvalidActor, logAuditAction_of_validate_some JSValue.null
      (JSValue.str act) (JSValue.str ds) m false EnqueueMode.ok nowIso qNow st
      AuditError.InvalidActor hinv⟩

/-- C10 witness: the legacy call with a null actor succeeds with a
system-attributed row while the strict call throws. -/
theorem C10_legacy_null_actor_coerced_witness :
    ((logAction JSValue.null (JSValue.str "LOGIN") (JSValue.str "legacy entry") JSValue.null
        false EnqueueMode.ok "t" 0 { logs := [], nextId := 1, queue := [] }).1
      = AuditOutcome.success 1
     ∧ ∃ row : DbLogRow,
         (logAction JSValue.null (JSValue.str "LOGIN") (JSValue.str "legacy entry") JSValue.null
             false EnqueueMode.ok "t" 0 { logs := [], nextId := 1, queue := [] }).2.logs
           = [] ++ [row]
         ∧ row.user_id = JSValue.num SYSTEM_USER_ID ∧ row.id = 1)
    ∧ (logAction JSValue.undefined (JSValue.str "LOGIN") (JSValue.str "legacy entry") JSValue.null
        false EnqueueMode.ok "t" 0 { logs := [], nextId := 1, queue := [] }).1
      = AuditOutcome.success 1
    ∧ ∃ e, logAuditAction JSValue.null (JSValue.str "LOGIN") (JSValue.str "legacy entry")
        JSValue.null false EnqueueMode.ok "t" 0 { logs := [], nextId := 1, queue := [] }
        = (AuditOutcome.thrown e, { logs := [], nextId := 1, queue := [] }) :=
  C10_legacy_null_actor_coerced "LOGIN" "legacy entry" JSValue.null "t" 0
    { logs := [], nextId := 1, queue := [] } (by decide) (by decide) (Or.inl rfl)

/-! ## Claims about the queue and background processor -/

/-- C1 counterexample: a single item whose classification always fails is
drained in four successive cycles — its retry counts at dequeue time are
0, 1, 2 and 3 — so after failing three times it is re-queued and does
appear a 4th time; only the fourth failure drops it.  This refutes the
claim that an item failing three times is dropped and never drained a 4th
time. -/
theorem C1_counterexample :
    ((runCycles [envFail, envFail, envFail, envFail]
        { queue := [failingItem], isProcessing := false, scores := [] }).1.map
      fun r => queueIds r.batch) = [[1], [1], [1], [1]]
    ∧ ((runCycles [envFail, envFail, envFail, envFail]
        { queue := [failingItem], isProcessing := false, scores := [] }).1.map
      fun r => r.batch.map QueueItem.retries) = [[0], [1], [2], [3]]
    ∧ ((runCycles [envFail, envFail, envFail, envFail]
        { queue := [failingItem], isProcessing := false, scores := [] }).1.map
      fun r => r.dropped) = [[], [], [], [1]] := by
  refine ⟨by decide, by decide, by decide⟩

/-- C1 (amended): the retry path re-queues a failed item (with retryCount
incremented and nextRetryAt stamped) while its retryCount is below
MAX_RETRIES, so a thrice-failed item is re-queued with retryCount 3 and is
drained a fourth time; a failure at retryCount MAX_RETRIES drops the item
without re-enqueueing it, and an id absent from the queue never appears in
any batch nor in the queue across any later sequence of drain cycles — a
dropped item is never processed again. -/
theorem C1_amended_retry_drop :
    (∀ (nowMs : Nat) (item : QueueItem) (q : List QueueItem),
        item.retries < MAX_RETRIES →
        handleFailedAnalysis nowMs item q = (q ++ [bumpRetry nowMs item], true))
    ∧ (∀ (nowMs : Nat) (item : QueueItem) (q : List QueueItem),
        MAX_RETRIES ≤ item.retries →
        handleFailedAnalysis nowMs item q = (q, false))
    ∧ (∀ (envs : List Env) (s : ProcState) (i : Int), i ∉ queueIds s.queue →
        (∀ r ∈ (runCycles envs s).1, i ∉ queueIds r.batch) ∧
        i ∉ queueIds (runCycles envs s).2.queue) := by
  refine ⟨?_, ?_, runCycles_absent_id⟩
  · intro nowMs item q h
    simp [handleFailedAnalysis, bumpRetry, h]
  · intro nowMs item q h
    have h2 : ¬ item.retries < MAX_RETRIES := by omega
    simp [handleFailedAnalysis, h2]

/-- C1 witness: the three parts of the amended claim applied at concrete
inputs — a once-retried item is re-queued with retryCount 2, an item at
retryCount 3 is dropped, and the id 3, absent from a concrete queue, is
still absent after a drain cycle. -/
theorem C1_amended_retry_drop_witness :
    handleFailedAnalysis 5 { failingItem with retries := 1 } [] =
      ([{ failingItem with retries := 2, nextRetryAt := some 30005 }], true)
    ∧ handleFailedAnalysis 5 exhaustedItem [] = ([], false)
    ∧ (3 : Int) ∉ queueIds (runCycles [envFail]
        { queue := [failingItem], isProcessing := false, scores := [] }).2.queue := by
  refine ⟨?_, ?_, ?_⟩
  · have h := C1_amended_retry_drop.1 5 { failingItem with retries := 1 } [] (by decide)
    simpa using h
  · exact C1_amended_retry_drop.2.1 5 exhaustedItem [] (by decide)
  · exact (C1_amended_retry_drop.2.2 [envFail]
      { queue := [failingItem], isProcessing := false, scores := [] } 3 (by decide)).2

/-- C4 evaluated at the failing input: the audit row is persisted with its
creation timestamp, but the snapshot enqueued by logAuditAction carries no
created_at and no timestamp field, so the drain calls the classifier with
a null timestamp instead of the original creation timestamp. -/
theorem C4_code_eval :
    c4State.logs.map DbLogRow.timestamp = ["2026-01-26T02:30:00Z"]
    ∧ c4State.queue.map QueueItem.created_at = [none]
    ∧ c4State.queue.map QueueItem.timestamp = [none]
    ∧ c4Cycle.calls = [(1, "user logged in successfully", none)] := by
  refine ⟨by decide, by decide, by decide, by decide⟩

/-- C7: every drain cycle takes at most BATCH_SIZE items, and what it
takes is exactly a front segment of the queue; in particular a cycle over
a 25-item queue with a healthy service takes exactly the first 10
items. -/
theorem C7_drain_takes_at_most_batch_size (health : Bool) (classify : ClassifyOracle)
    (nowMs : Nat) (nowIso : String) (s : ProcState) :
    (processQueue health classify nowMs nowIso s).batch.length ≤ BATCH_SIZE
    ∧ ((processQueue health classify nowMs nowIso s).batch = []
       ∨ (processQueue health classify nowMs nowIso s).batch = s.queue.take BATCH_SIZE)
    ∧ (s.isProcessing = false → health = true → s.queue.length = 25 →
       (processQueue health classify nowMs nowIso s).batch = s.queue.take 10
       ∧ (processQueue health classify nowMs nowIso s).batch.length = 10) := by
  have hb : (processQueue health classify nowMs nowIso s).batch = []
      ∨ (processQueue health classify nowMs nowIso s).batch = s.queue.take BATCH_SIZE := by
    unfold processQueue
    split
    · exact Or.inl rfl
    · split
      · exact Or.inl rfl
      · split
        · exact Or.inl rfl
        · exact Or.inr rfl
  refine ⟨?_, hb, ?_⟩
  · rcases hb with h | h
    · rw [h]
      exact Nat.zero_le _
    · rw [h, List.length_take]
      exact min_le_left _ _
  · intro h1 h2 h25
    have hne : s.queue.isEmpty = false := by
      cases hq : s.queue with
      | nil =>
        rw [hq] at h25
        cases h25
      | cons a l => rfl
    subst h2
    have hmain : (processQueue true classify nowMs nowIso s).batch = s.queue.take BATCH_SIZE := by
      simp [processQueue, h1, hne]
    constructor
    · exact hmain
    · rw [hmain, List.length_take, h25]
      decide

/-- C7 witness: the first drain over a 25-item queue takes exactly the
first 10 items. -/
theorem C7_drain_takes_at_most_batch_size_witness :
    (processQueue true (fun _ _ _ => none) 0 "t"
        { queue := List.replicate 25 failingItem, isProcessing := false, scores := [] }).batch
      = (List.replicate 25 failingItem).take 10
    ∧ (processQueue true (fun _ _ _ => none) 0 "t"
        { queue := List.replicate 25 failingItem, isProcessing := false, scores := [] }).batch.length
      = 10 :=
  (C7_drain_takes_at_most_batch_size true (fun _ _ _ => none) 0 "t"
    { queue := List.replicate 25 failingItem, isProcessing := false, scores := [] }).2.2
    rfl rfl (by decide)

/-- C8: when the health check comes back false during a drain cycle (the
processing flag not already held), the cycle consumes no items — queue,
contents and score table are unchanged — and the processing flag is left
cleared so later cycles can run. -/
theorem C8_unhealthy_drain_preserves_queue (classify : ClassifyOracle) (nowMs : Nat)
    (nowIso : String) (s : ProcState) (hp : s.isProcessing = false) :
    (processQueue false classify nowMs nowIso s).state.queue = s.queue
    ∧ (processQueue false classify nowMs nowIso s).state.isProcessing = false
    ∧ (processQueue false classify nowMs nowIso s).batch = []
    ∧ (processQueue false classify nowMs nowIso s).state.scores = s.scores := by
  by_cases he : s.queue.isEmpty = true
  · simp [processQueue, hp, he]
  · have he2 : s.queue.isEmpty = false := by simpa using he
    simp [processQueue, hp, he2]

/-- C8 witness: an unhealthy cycle over a concrete one-item queue leaves
it untouched with the flag cleared. -/
theorem C8_unhealthy_drain_preserves_queue_witness :
    (processQueue false (fun _ _ _ => none) 0 "t"
        { queue := [failingItem], isProcessing := false, scores := [] }).state.queue
      = [failingItem]
    ∧ (processQueue false (fun _ _ _ => none) 0 "t"
        { queue := [failingItem], isProcessing := false, scores := [] }).state.isProcessing
      = false
    ∧ (processQueue false (fun _ _ _ => none) 0 "t"
        { queue := [failingItem], isProcessing := false, scores := [] }).batch = []
    ∧ (processQueue false (fun _ _ _ => none) 0 "t"
        { queue := [failingItem], isProcessing := false, scores := [] }).state.scores = [] :=
  C8_unhealthy_drain_preserves_queue (fun _ _ _ => none) 0 "t"
    { queue := [failingItem], isProcessing := false, scores := [] } rfl

/-! ## Claims about the classifier client and the read path -/

/-- C6: isServiceAvailable returns true only when the HTTP response is ok
and the embedded model_loaded flag is strictly true (the code also demands
status healthy); every other outcome — a thrown network error or timeout,
a non-ok status, a malformed body — evaluates to false, the function being
total on all modelled outcomes (never throwing). -/
theorem C6_health_check (o : FetchOutcome) :
    (isServiceAvailable o = true →
      ∃ data, o = FetchOutcome.response true (some data)
        ∧ jsStrictEqStr (jsGet data "status") "healthy" = true
        ∧ jsStrictEqTrue (jsGet data "model_loaded") = true)
    ∧ isServiceAvailable FetchOutcome.netError = false
    ∧ (∀ body, isServiceAvailable (FetchOutcome.response false body) = false)
    ∧ (∀ ok, isServiceAvailable (FetchOutcome.response ok none) = false) := by
  refine ⟨?_, rfl, ?_, ?_⟩
  · intro h
    cases o with
    | netError => cases h
    | response ok body =>
      cases ok with
      | false => simp [isServiceAvailable] at h
      | true =>
        cases body with
        | none => simp [isServiceAvailable] at h
        | some data =>
          simp only [isServiceAvailable, Bool.not_true, Bool.false_eq_true, if_false,
            Bool.and_eq_true] at h
          exact ⟨data, rfl, h.1, h.2⟩
  · intro body
    cases body <;> rfl
  · intro ok
    cases ok <;> rfl

/-- C6 witness: a healthy response with the model loaded evaluates to
true, and the theorem recovers its components. -/
theorem C6_health_check_witness :
    ∃ data, FetchOutcome.response true (some (JSValue.obj
        [("status", JSValue.str "healthy"), ("model_loaded", JSValue.bool true)]))
        = FetchOutcome.response true (some data)
      ∧ jsStrictEqStr (jsGet data "status") "healthy" = true
      ∧ jsStrictEqTrue (jsGet data "model_loaded") = true :=
  (C6_health_check (FetchOutcome.response true (some (JSValue.obj
    [("status", JSValue.str "healthy"), ("model_loaded", JSValue.bool true)])))).1 (by decide)

/-- C9: a log row with no related score row is returned by the read-side
left join with anomalyScore null, isAnomaly false and modelName null,
while its own fields (id, userId, action, description, metadata,
createdAt) pass through unchanged. -/
theorem C9_unscored_left_join (logs : List DbLogRow) (scores : List ScoreRow) (log : DbLogRow)
    (hmem : log ∈ logs) (hnone : ∀ srow ∈ scores, srow.log_id ≠ log.id) :
    mapLogRow scores log ∈ listWithResults logs scores
    ∧ mapLogRow scores log =
      { id := log.id, userId := log.user_id, action := log.action,
        description := log.description, metadata := log.metadata, createdAt := log.timestamp,
        anomalyScore := none, isAnomaly := false, modelName := none, analyzedAt := none } := by
  have hf : findScoreFor scores log.id = none := by
    apply List.find?_eq_none.mpr
    intro srow hs
    simp only [beq_iff_eq]
    exact hnone srow hs
  constructor
  · simp only [listWithResults]
    exact List.mem_map_of_mem _ hmem
  · simp [mapLogRow, hf]

/-- C9 witness: a concrete unscored row joins to null score fields with
its own fields unchanged. -/
theorem C9_unscored_left_join_witness :
    mapLogRow [{ log_id := 2, anomaly_score := 1, is_anomaly := true, model_name := "m",
                 threshold_used := thresholdUsed, analysis_text := none, analyzed_at := "t2" }]
      { id := 1, user_id := JSValue.num 7, action := "LOGIN", description := "x",
        metadata := JSValue.null, timestamp := "t1" }
      ∈ listWithResults
          [{ id := 1, user_id := JSValue.num 7, action := "LOGIN", description := "x",
             metadata := JSValue.null, timestamp := "t1" }]
          [{ log_id := 2, anomaly_score := 1, is_anomaly := true, model_name := "m",
             threshold_used := thresholdUsed, analysis_text := none, analyzed_at := "t2" }]
    ∧ mapLogRow [{ log_id := 2, anomaly_score := 1, is_anomaly := true, model_name := "m",
                   threshold_used := thresholdUsed, analysis_text := none, analyzed_at := "t2" }]
        { id := 1, user_id := JSValue.num 7, action := "LOGIN", description := "x",
          metadata := JSValue.null, timestamp := "t1" }
      = { id := 1, userId := JSValue.num 7, action := "LOGIN", description := "x",
          metadata := JSValue.null, createdAt := "t1",
          anomalyScore := none, isAnomaly := false, modelName := none, analyzedAt := none } :=
  C9_unscored_left_join
    [{ id := 1, user_id := JSValue.num 7, action := "LOGIN", description := "x",
       metadata := JSValue.null, timestamp := "t1" }]
    [{ log_id := 2, anomaly_score := 1, is_anomaly := true, model_name := "m",
       threshold_used := thresholdUsed, analysis_text := none, analyzed_at := "t2" }]
    { id := 1, user_id := JSValue.num 7, action := "LOGIN", description := "x",
      metadata := JSValue.null, timestamp := "t1" }
    (List.mem_singleton.mpr rfl) (by decide)

end AuditPipeline
